import Mathlib

/-!
Verification of the `django-messages` repository (two source files:
`django_messages/fields.py` and `django_messages/views.py`).

Python strings are embedded as `List Char` (`PyStr`), so that Python's
`str.split`, `str.strip` and `', '.join` become `List.splitOn`,
whitespace-dropping on both ends, and `List.intercalate`.  Python `str(n)`
for a natural number is the big-endian decimal digit string (`natStr`).
Django `User` objects are embedded as records carrying their primary key;
`Message` rows carry the fields the views touch.  Framework pieces
(`forms.Field.clean` super call, URL reversing, template rendering,
`login_required`) are delegated boundaries: they are modelled as identity,
literal route names, response constructors, and an authenticated user id.
Module-level state of `views.py` (the `notification` binding computed
at module load from `settings.INSTALLED_APPS`) is threaded through every handler
explicitly, so that absence of writes to it is a provable statement.
-/

namespace DjangoMessages

/-- Embedding of a Python `str` as its character list. -/
abbrev PyStr := List Char

/-- Python `str.strip()`: drop whitespace from both ends. -/
def pyStrip (s : PyStr) : PyStr :=
  (s.dropWhile Char.isWhitespace).rdropWhile Char.isWhitespace

/-- Fuel-driven big-endian decimal digit conversion (structural recursion,
so that concrete instances evaluate inside `decide`). -/
def toDecAux : Nat → Nat → PyStr
  | 0, _ => []
  | _, 0 => []
  | fuel + 1, n + 1 => toDecAux fuel ((n + 1) / 10) ++ [Nat.digitChar ((n + 1) % 10)]

/-- Python `str(n)` for a natural number: big-endian decimal digits,
with `str(0) = "0"`. -/
def natStr (n : Nat) : PyStr :=
  if n = 0 then ['0'] else toDecAux n n

/-- Embedding of `django.contrib.auth.models.User`: only the primary key
is relevant to this codebase. -/
structure PUser where
  pk : Nat
deriving DecidableEq, Repr

/-- A value flowing through `CommaSeparatedUserField.clean`: either a raw
string (the usual widget submission) or an already-built list of users
(the `isinstance(value, (list, tuple))` branch). -/
inductive CleanValue where
  | vStr (s : PyStr)
  | vList (l : List PUser)
deriving DecidableEq, Repr

/-- Exceptions `CommaSeparatedUserField.clean` can raise:
`forms.ValidationError` (carrying the list of incorrect id strings), and
`AttributeError` (the `r.gk` attribute access in the recipient-filter
loop: `User` has no attribute `gk`). -/
inductive CleanError where
  | validationError (incorrect : List PyStr)
  | attributeError
deriving DecidableEq, Repr

instance {α β : Type} [DecidableEq α] [DecidableEq β] : DecidableEq (Except α β)
  | .ok a, .ok b => decidable_of_iff (a = b) (by simp)
  | .ok _, .error _ => isFalse (by simp)
  | .error _, .ok _ => isFalse (by simp)
  | .error a, .error b => decidable_of_iff (a = b) (by simp)

/-- The set `ids_set` of `clean`: `ids = set(value.split(','))` followed by
`set(uid.strip() for uid in ids if uid.strip())`.  Python sets are embedded
as deduplicated lists (membership is what the code observes). -/
def idsSetOf (s : PyStr) : List PyStr :=
  (((s.splitOn ',').dedup.map pyStrip).filter (fun t => !t.isEmpty)).dedup

/-- The query `User.objects.filter(pk__in=ids_set)`: the users whose
pk-string is one of the submitted id strings (the ORM lookup is a
framework boundary, embedded as string-match on the decimal pk). -/
def usersFound (allUsers : List PUser) (idsSet : List PyStr) : List PUser :=
  allUsers.filter (fun u => decide (natStr u.pk ∈ idsSet))

/-- The set `set(str(user.pk) for user in users)` built by `clean`. -/
def pkStrsOf (users : List PUser) : List PyStr :=
  (users.map (fun u => natStr u.pk)).dedup

/-- The expression `ids_set ^ set(str(user.pk) for user in users)`:
symmetric difference of the two sets, as a deduplicated list. -/
def unknownIdsOf (idsSet pkStrs : List PyStr) : List PyStr :=
  idsSet.filter (fun t => decide (t ∉ pkStrs)) ++
    pkStrs.filter (fun t => decide (t ∉ idsSet))

/-- Embedding of `CommaSeparatedUserField.clean`.  `rf` is the
`recipient_filter` callable stored by `__init__` (`none` when absent);
`allUsers` is the `User` table.  The `super().clean(value)` call only runs
framework validators and is modelled as a no-op.  In the filter loop the
source executes `users.remove(r); invalid_users.append(r.gk)` for each
rejected user; `r.gk` does not exist on `User`, so the first rejected
user raises `AttributeError`. -/
def fieldClean (rf : Option (PUser → Bool)) (allUsers : List PUser)
    (value : CleanValue) : Except CleanError CleanValue :=
  match value with
  | .vList l => if l.isEmpty then .ok (.vStr []) else .ok (.vList l)
  | .vStr s =>
    if s.isEmpty then .ok (.vStr [])
    else
      let idsSet := idsSetOf s
      let users := usersFound allUsers idsSet
      let unknownIds := unknownIdsOf idsSet (pkStrsOf users)
      match rf with
      | some f =>
        if users.any (fun u => f u == false) then .error .attributeError
        else if unknownIds.isEmpty then .ok (.vList users)
        else .error (.validationError unknownIds)
      | none =>
        if unknownIds.isEmpty then .ok (.vList users)
        else .error (.validationError unknownIds)

/-- The string `CommaSeparatedUserInput.render` embeds as the widget value
when given a list of users: `', '.join([str(user.pk) for user in value])`
(a `None` value renders as the empty string, a string value renders
as itself). -/
def commaSeparatedUserInputValue (value : Option CleanValue) : PyStr :=
  match value with
  | none => []
  | some (.vStr s) => s
  | some (.vList us) => [',', ' '].intercalate (us.map (fun u => natStr u.pk))

/-! ## Embedding of `django_messages/views.py` -/

/-- Embedding of a `Message` row: the fields of the django-messages
`Message` model that the two source files touch.  Users are referred to
by primary key. -/
structure Msg where
  id : Nat
  sender : Nat
  recipient : Nat
  subject : String
  body : String
  sent_at : Option Nat
  read_at : Option Nat
  replied_at : Option Nat
  sender_deleted_at : Option Nat
  recipient_deleted_at : Option Nat
deriving DecidableEq, Repr

/-- The message table. -/
abbrev Store := List Msg

/-- Module-level state of `views.py`: the `notification` binding, set once
at import time from `settings.INSTALLED_APPS` (lines 19-22) and never
reassigned. -/
structure ModuleEnv where
  notificationInstalled : Bool
deriving DecidableEq, Repr

/-- The request data the handlers read: the authenticated user
(`login_required` guarantees one), the HTTP method, and the optional
`next` GET parameter. -/
structure Request where
  user : Nat
  isPost : Bool
  getNext : Option String
deriving DecidableEq, Repr

/-- The responses the handlers build: a redirect, a rendered message list,
a rendered form (with the computed `to`-field initial), or a rendered
single message. -/
inductive Resp where
  | redirect (url : String)
  | renderList (tpl : String) (msgs : List Msg)
  | renderForm (tpl : String) (toInitial : String)
  | renderMessage (tpl : String) (m : Msg)
deriving DecidableEq, Repr

/-- Outcome of one handler run: the module state after the run, the message
table after the run, the response (`Except.error ()` is `Http404`), and the
notifications sent (`notification.send` labels). -/
structure HResult where
  env : ModuleEnv
  store : Store
  resp : Except Unit Resp
  notices : List String
deriving Repr, DecidableEq

/-- `get_object_or_404(Message, id=message_id)`: the row with the given id,
`none` meaning `Http404`. -/
def findMsg (store : Store) (mid : Nat) : Option Msg :=
  store.find? (fun m => m.id = mid)

/-- `message.save()`: write the row back over the row with its id. -/
def saveMsg (store : Store) (m : Msg) : Store :=
  store.map (fun x => if x.id = m.id then m else x)

/-- The `success_url` computation shared by `compose`, `delete` and
`undelete`: default to `reverse('messages_inbox')` when no argument was
given, then let a `next` GET parameter override it. -/
def resolveSuccessUrl (req : Request) (successUrl : Option String) : String :=
  match req.getNext with
  | some nxt => nxt
  | none => successUrl.getD "messages_inbox"

/-- Modelled from the spec: `Message.objects.inbox_for` lives in the
repository's `models.py`, which is not among the source files; the view
docstring says it lists the received messages of the current user. -/
def inbox_for (u : Nat) (store : Store) : List Msg :=
  store.filter (fun m => m.recipient = u)

/-- Modelled from the spec: `Message.objects.outbox_for` lives in the
repository's `models.py`, which is not among the source files; the view
docstring says it lists the messages sent by the current user. -/
def outbox_for (u : Nat) (store : Store) : List Msg :=
  store.filter (fun m => m.sender = u)

/-- Modelled from the spec: `Message.objects.trash_for` lives in the
repository's `models.py`, which is not among the source files; the view
docstring says it lists the messages the current user has deleted. -/
def trash_for (u : Nat) (store : Store) : List Msg :=
  store.filter (fun m =>
    (m.sender = u ∧ m.sender_deleted_at ≠ none) ∨
      (m.recipient = u ∧ m.recipient_deleted_at ≠ none))

/-- The behaviour of the `form_class` (`ComposeForm`, defined in the
repository's `forms.py`, which is not among the source files) as `compose`
and `reply` observe it: validity of the bound form, the store update done
by `form.save(sender, parent_msg)`, and the result of
`form.fields['recipient'].clean(form.data['recipient'])`. -/
structure FormModel where
  isValid : Bool
  save : Nat → Option Msg → Store → Store
  cleanedRecipients : Except Unit (List PUser)

/-- The `inbox` view (lines 24-34): list received messages; no mutation. -/
def inboxView (env : ModuleEnv) (req : Request) (store : Store) : HResult :=
  ⟨env, store,
    .ok (.renderList "django_messages/inbox.html" (inbox_for req.user store)), []⟩

/-- The `outbox` view (lines 36-46): list sent messages; no mutation. -/
def outboxView (env : ModuleEnv) (req : Request) (store : Store) : HResult :=
  ⟨env, store,
    .ok (.renderList "django_messages/outbox.html" (outbox_for req.user store)), []⟩

/-- The `trash` view (lines 48-60): list deleted messages; no mutation. -/
def trashView (env : ModuleEnv) (req : Request) (store : Store) : HResult :=
  ⟨env, store,
    .ok (.renderList "django_messages/trash.html" (trash_for req.user store)), []⟩

/-- The `compose` view (lines 62-110).  `signature` is the framework-side
`u.profile.signature` lookup; `recipient` is the optional URL argument of
'+'-separated user ids; `allUsers` is the `User` table. -/
def composeView (env : ModuleEnv) (allUsers : List PUser) (fm : FormModel)
    (signature : Nat → String) (req : Request) (store : Store)
    (recipient : Option PyStr) (successUrl : Option String) : HResult :=
  if req.isPost then
    if fm.isValid then
      ⟨env, fm.save req.user none store,
        .ok (.redirect (resolveSuccessUrl req successUrl)), []⟩
    else
      let recipients : List PUser :=
        match fm.cleanedRecipients with
        | .ok rs => rs
        | .error _ => []
      ⟨env, store,
        .ok (.renderForm "django_messages/compose.html"
          ("<br>".intercalate (recipients.map (fun u => signature u.pk)))), []⟩
  else
    let recipients : List PUser :=
      match recipient with
      | some r =>
        allUsers.filter (fun u => decide (natStr u.pk ∈ (r.splitOn '+').map pyStrip))
      | none => []
    if recipients.isEmpty then ⟨env, store, .error (), []⟩
    else
      ⟨env, store,
        .ok (.renderForm "django_messages/compose.html"
          ("<br>".intercalate (recipients.map (fun u => signature u.pk)))), []⟩

/-- The `reply` view (lines 112-147).  The parent lookup 404s first, then
the sender/recipient permission check; a valid POST saves through the form
with the parent message attached; otherwise the compose template is
rendered with the parent sender's signature. -/
def replyView (env : ModuleEnv) (fm : FormModel) (signature : Nat → String)
    (req : Request) (store : Store) (mid : Nat)
    (successUrl : Option String) : HResult :=
  match findMsg store mid with
  | none => ⟨env, store, .error (), []⟩
  | some parent =>
    if parent.sender ≠ req.user ∧ parent.recipient ≠ req.user then
      ⟨env, store, .error (), []⟩
    else if req.isPost ∧ fm.isValid then
      ⟨env, fm.save req.user (some parent) store,
        .ok (.redirect (successUrl.getD "messages_inbox")), []⟩
    else
      ⟨env, store,
        .ok (.renderForm "django_messages/compose.html" (signature parent.sender)), []⟩

/-- The `delete` view (lines 149-182): soft-delete by stamping
`sender_deleted_at` / `recipient_deleted_at` with `datetime.datetime.now()`
and saving; `Http404` when the requester is neither sender nor
recipient. -/
def deleteView (env : ModuleEnv) (req : Request) (now : Nat) (store : Store)
    (mid : Nat) (successUrl : Option String) : HResult :=
  match findMsg store mid with
  | none => ⟨env, store, .error (), []⟩
  | some message =>
    let url := resolveSuccessUrl req successUrl
    let m1 :=
      if message.sender = req.user then
        { message with sender_deleted_at := some now }
      else message
    let m2 :=
      if message.recipient = req.user then
        { m1 with recipient_deleted_at := some now }
      else m1
    if message.sender = req.user ∨ message.recipient = req.user then
      ⟨env, saveMsg store m2, .ok (.redirect url),
        if env.notificationInstalled then ["messages_deleted"] else []⟩
    else ⟨env, store, .error (), []⟩

/-- The `undelete` view (lines 184-209): clear the requester's soft-delete
marker and save; `Http404` when the requester is neither sender nor
recipient. -/
def undeleteView (env : ModuleEnv) (req : Request) (store : Store)
    (mid : Nat) (successUrl : Option String) : HResult :=
  match findMsg store mid with
  | none => ⟨env, store, .error (), []⟩
  | some message =>
    let url := resolveSuccessUrl req successUrl
    let m1 :=
      if message.sender = req.user then
        { message with sender_deleted_at := none }
      else message
    let m2 :=
      if message.recipient = req.user then
        { m1 with recipient_deleted_at := none }
      else m1
    if message.sender = req.user ∨ message.recipient = req.user then
      ⟨env, saveMsg store m2, .ok (.redirect url),
        if env.notificationInstalled then ["messages_recovered"] else []⟩
    else ⟨env, store, .error (), []⟩

/-- The `view` view (lines 211-231): show a single message; `Http404`
unless the requester is sender or recipient; stamp `read_at` and save when
the recipient opens an unread message. -/
def viewView (env : ModuleEnv) (req : Request) (now : Nat) (store : Store)
    (mid : Nat) : HResult :=
  match findMsg store mid with
  | none => ⟨env, store, .error (), []⟩
  | some message =>
    if message.sender ≠ req.user ∧ message.recipient ≠ req.user then
      ⟨env, store, .error (), []⟩
    else if message.read_at = none ∧ message.recipient = req.user then
      let message := { message with read_at := some now }
      ⟨env, saveMsg store message,
        .ok (.renderMessage "django_messages/view.html" message), []⟩
    else
      ⟨env, store, .ok (.renderMessage "django_messages/view.html" message), []⟩

/-- The view handlers `views.py` defines, in source order. -/
def viewHandlerNames : List String :=
  ["inbox", "outbox", "trash", "compose", "reply", "delete", "undelete", "view"]

end DjangoMessages

namespace DjangoMessages

theorem toDecAux_eq_digits (fuel : Nat) :
    ∀ n, n ≤ fuel → toDecAux fuel n = ((Nat.digits 10 n).map Nat.digitChar).reverse := by
  induction fuel with
  | zero =>
    intro n hn
    interval_cases n
    simp [toDecAux]
  | succ fuel ih =>
    intro n hn
    match n with
    | 0 => simp [toDecAux]
    | m + 1 =>
      rw [toDecAux, Nat.digits_def' (by norm_num : 1 < 10) (Nat.succ_pos m)]
      have hdiv : (m + 1) / 10 ≤ fuel :=
        Nat.le_of_lt_succ (Nat.lt_of_lt_of_le (Nat.div_lt_self (Nat.succ_pos m) (by norm_num)) hn)
      rw [ih _ hdiv]
      simp

/-- `natStr` as a `Nat.digits` expression, for reasoning. -/
theorem natStr_eq_digits (n : Nat) :
    natStr n = if n = 0 then ['0'] else ((Nat.digits 10 n).map Nat.digitChar).reverse := by
  unfold natStr
  split
  · rfl
  · exact toDecAux_eq_digits n n le_rfl

/-! ## Branch behaviour of `delete`, `undelete` and `view` -/

theorem findMsg_id {store : Store} {mid : Nat} {m : Msg}
    (h : findMsg store mid = some m) : m.id = mid := by
  simpa using List.find?_some h

theorem findMsg_mem {store : Store} {mid : Nat} {m : Msg}
    (h : findMsg store mid = some m) : m ∈ store :=
  List.mem_of_find?_eq_some h

theorem saveMsg_length (store : Store) (m : Msg) :
    (saveMsg store m).length = store.length := by
  simp [saveMsg]

theorem mem_saveMsg_self {store : Store} {x : Msg} (m : Msg)
    (hx : x ∈ store) (hid : x.id = m.id) : m ∈ saveMsg store m := by
  have h := List.mem_map_of_mem (fun y => if y.id = m.id then m else y) hx
  simpa [saveMsg, hid] using h

/-- The message written back by a successful `delete`: both ownership
conditions stamp their marker with `now`. -/
def deleteStamp (m : Msg) (user now : Nat) : Msg :=
  { m with
    sender_deleted_at :=
      if m.sender = user then some now else m.sender_deleted_at,
    recipient_deleted_at :=
      if m.recipient = user then some now else m.recipient_deleted_at }

/-- The message written back by a successful `undelete`: both ownership
conditions clear their marker. -/
def undeleteClear (m : Msg) (user : Nat) : Msg :=
  { m with
    sender_deleted_at :=
      if m.sender = user then none else m.sender_deleted_at,
    recipient_deleted_at :=
      if m.recipient = user then none else m.recipient_deleted_at }

theorem deleteView_success (env : ModuleEnv) (req : Request) (now : Nat)
    (store : Store) (mid : Nat) (url : Option String) (m : Msg)
    (hfind : findMsg store mid = some m)
    (hperm : m.sender = req.user ∨ m.recipient = req.user) :
    deleteView env req now store mid url =
      ⟨env, saveMsg store (deleteStamp m req.user now),
        .ok (.redirect (resolveSuccessUrl req url)),
        if env.notificationInstalled then ["messages_deleted"] else []⟩ := by
  unfold deleteView
  rw [hfind]
  dsimp only
  rw [if_pos hperm]
  by_cases h1 : m.sender = req.user <;> by_cases h2 : m.recipient = req.user <;>
    simp [deleteStamp, h1, h2]

theorem deleteView_404 (env : ModuleEnv) (req : Request) (now : Nat)
    (store : Store) (mid : Nat) (url : Option String) (m : Msg)
    (hfind : findMsg store mid = some m)
    (hperm : ¬(m.sender = req.user ∨ m.recipient = req.user)) :
    deleteView env req now store mid url = ⟨env, store, .error (), []⟩ := by
  unfold deleteView
  rw [hfind]
  dsimp only
  rw [if_neg hperm]

theorem undeleteView_success (env : ModuleEnv) (req : Request)
    (store : Store) (mid : Nat) (url : Option String) (m : Msg)
    (hfind : findMsg store mid = some m)
    (hperm : m.sender = req.user ∨ m.recipient = req.user) :
    undeleteView env req store mid url =
      ⟨env, saveMsg store (undeleteClear m req.user),
        .ok (.redirect (resolveSuccessUrl req url)),
        if env.notificationInstalled then ["messages_recovered"] else []⟩ := by
  unfold undeleteView
  rw [hfind]
  dsimp only
  rw [if_pos hperm]
  by_cases h1 : m.sender = req.user <;> by_cases h2 : m.recipient = req.user <;>
    simp [undeleteClear, h1, h2]

theorem undeleteView_404 (env : ModuleEnv) (req : Request)
    (store : Store) (mid : Nat) (url : Option String) (m : Msg)
    (hfind : findMsg store mid = some m)
    (hperm : ¬(m.sender = req.user ∨ m.recipient = req.user)) :
    undeleteView env req store mid url = ⟨env, store, .error (), []⟩ := by
  unfold undeleteView
  rw [hfind]
  dsimp only
  rw [if_neg hperm]

theorem eq_of_mem_of_id_eq {store : Store} {x y : Msg}
    (hnodup : (store.map Msg.id).Nodup) (hx : x ∈ store) (hy : y ∈ store)
    (h : x.id = y.id) : x = y :=
  List.inj_on_of_nodup_map hnodup hx hy h

/-! ## Module-state preservation of the handlers -/

theorem inboxView_env_eq (env : ModuleEnv) (req : Request) (store : Store) :
    (inboxView env req store).env = env := rfl

theorem outboxView_env_eq (env : ModuleEnv) (req : Request) (store : Store) :
    (outboxView env req store).env = env := rfl

theorem trashView_env_eq (env : ModuleEnv) (req : Request) (store : Store) :
    (trashView env req store).env = env := rfl

theorem composeView_env_eq (env : ModuleEnv) (allUsers : List PUser) (fm : FormModel)
    (signature : Nat → String) (req : Request) (store : Store)
    (recipient : Option PyStr) (successUrl : Option String) :
    (composeView env allUsers fm signature req store recipient successUrl).env = env := by
  unfold composeView
  split
  · split <;> rfl
  · dsimp only
    split <;> rfl

theorem replyView_env_eq (env : ModuleEnv) (fm : FormModel) (signature : Nat → String)
    (req : Request) (store : Store) (mid : Nat) (successUrl : Option String) :
    (replyView env fm signature req store mid successUrl).env = env := by
  unfold replyView
  split
  · rfl
  · split
    · rfl
    · split <;> rfl

theorem deleteView_env_eq (env : ModuleEnv) (req : Request) (now : Nat) (store : Store)
    (mid : Nat) (successUrl : Option String) :
    (deleteView env req now store mid successUrl).env = env := by
  unfold deleteView
  split
  · rfl
  · dsimp only
    split <;> rfl

theorem undeleteView_env_eq (env : ModuleEnv) (req : Request) (store : Store)
    (mid : Nat) (successUrl : Option String) :
    (undeleteView env req store mid successUrl).env = env := by
  unfold undeleteView
  split
  · rfl
  · dsimp only
    split <;> rfl

theorem viewView_env_eq (env : ModuleEnv) (req : Request) (now : Nat) (store : Store)
    (mid : Nat) : (viewView env req now store mid).env = env := by
  unfold viewView
  split
  · rfl
  · split
    · rfl
    · split <;> rfl

/-- C8: no view handler reads or writes shared mutable module-level state:
each handler leaves the module state exactly as it found it, and therefore a
second run of the same handler in the same process, on an equal request,
equal store and equal clock, produces the same result as the first. -/
theorem views_no_shared_mutable_module_state :
    (∀ env req store, (inboxView env req store).env = env ∧
      inboxView (inboxView env req store).env req store = inboxView env req store) ∧
    (∀ env req store, (outboxView env req store).env = env ∧
      outboxView (outboxView env req store).env req store = outboxView env req store) ∧
    (∀ env req store, (trashView env req store).env = env ∧
      trashView (trashView env req store).env req store = trashView env req store) ∧
    (∀ env allUsers fm signature req store recipient successUrl,
      (composeView env allUsers fm signature req store recipient successUrl).env = env ∧
      composeView (composeView env allUsers fm signature req store recipient successUrl).env
          allUsers fm signature req store recipient successUrl =
        composeView env allUsers fm signature req store recipient successUrl) ∧
    (∀ env fm signature req store mid successUrl,
      (replyView env fm signature req store mid successUrl).env = env ∧
      replyView (replyView env fm signature req store mid successUrl).env
          fm signature req store mid successUrl =
        replyView env fm signature req store mid successUrl) ∧
    (∀ env req now store mid successUrl,
      (deleteView env req now store mid successUrl).env = env ∧
      deleteView (deleteView env req now store mid successUrl).env
          req now store mid successUrl =
        deleteView env req now store mid successUrl) ∧
    (∀ env req store mid successUrl,
      (undeleteView env req store mid successUrl).env = env ∧
      undeleteView (undeleteView env req store mid successUrl).env
          req store mid successUrl =
        undeleteView env req store mid successUrl) ∧
    (∀ env req now store mid,
      (viewView env req now store mid).env = env ∧
      viewView (viewView env req now store mid).env req now store mid =
        viewView env req now store mid) := by
  refine ⟨fun env req store => ⟨rfl, rfl⟩,
    fun env req store => ⟨rfl, rfl⟩,
    fun env req store => ⟨rfl, rfl⟩,
    fun env allUsers fm signature req store recipient successUrl => ?_,
    fun env fm signature req store mid successUrl => ?_,
    fun env req now store mid successUrl => ?_,
    fun env req store mid successUrl => ?_,
    fun env req now store mid => ?_⟩
  · exact ⟨composeView_env_eq .., by rw [composeView_env_eq]⟩
  · exact ⟨replyView_env_eq .., by rw [replyView_env_eq]⟩
  · exact ⟨deleteView_env_eq .., by rw [deleteView_env_eq]⟩
  · exact ⟨undeleteView_env_eq .., by rw [undeleteView_env_eq]⟩
  · exact ⟨viewView_env_eq .., by rw [viewView_env_eq]⟩

/-! ## Handler count and the pure listing handlers -/

/-- C6 counterexample: `views.py` defines eight view handlers, not six. -/
theorem views_not_six_handlers : ¬ viewHandlerNames.length = 6 := by decide

/-- C6 (amended): the views module implements exactly eight view handlers,
and the three listing handlers (`inbox`, `outbox`, `trash`) perform no
field mutation and no save: they leave the message store unchanged and
send no notification. -/
theorem views_eight_handlers_and_pure_listers :
    viewHandlerNames.length = 8 ∧
    (∀ env req store, (inboxView env req store).store = store ∧
      (inboxView env req store).notices = []) ∧
    (∀ env req store, (outboxView env req store).store = store ∧
      (outboxView env req store).notices = []) ∧
    (∀ env req store, (trashView env req store).store = store ∧
      (trashView env req store).notices = []) :=
  ⟨by decide, fun _ _ _ => ⟨rfl, rfl⟩, fun _ _ _ => ⟨rfl, rfl⟩, fun _ _ _ => ⟨rfl, rfl⟩⟩

/-! ## Edge cases and the recipient-filter defect of `clean` -/

/-- C10: a falsy value (the empty string, or an empty list) makes `clean`
return the empty string; a non-empty list or tuple is returned unchanged,
with no user-table lookup and no recipient-filter call (the result does not
depend on either). -/
theorem clean_falsy_and_list_passthrough (rf : Option (PUser → Bool))
    (allUsers : List PUser) :
    fieldClean rf allUsers (.vStr []) = .ok (.vStr []) ∧
    fieldClean rf allUsers (.vList []) = .ok (.vStr []) ∧
    ∀ l : List PUser, l ≠ [] → fieldClean rf allUsers (.vList l) = .ok (.vList l) := by
  refine ⟨rfl, rfl, fun l hl => ?_⟩
  simp [fieldClean, hl]

theorem clean_falsy_and_list_passthrough_witness :
    fieldClean none [] (.vStr []) = .ok (.vStr []) ∧
    fieldClean (some (fun _ => false)) [⟨9⟩] (.vList [⟨3⟩]) = .ok (.vList [⟨3⟩]) :=
  ⟨(clean_falsy_and_list_passthrough none []).1,
    (clean_falsy_and_list_passthrough (some (fun _ => false)) [⟨9⟩]).2.2 [⟨3⟩] (by decide)⟩

/-- C2: at the failing input — a `recipient_filter` that rejects user 7,
with `"7"` submitted and user 7 present — `clean` raises `AttributeError`
(the `r.gk` access on line 47 of `fields.py`), not a `ValidationError`. -/
theorem clean_rejection_raises_attribute_error :
    fieldClean (some (fun _ => false)) [⟨7⟩] (.vStr ['7']) =
      .error .attributeError := by decide

/-- C3: whenever the recipient filter rejects at least one found user —
whether it rejects everyone or only user 1 of `"1,2"` — `clean` crashes
with `AttributeError` instead of raising the claimed `ValidationError`
naming the rejected pks (and instead of returning the kept users). -/
theorem clean_filter_rejection_crashes :
    fieldClean (some (fun _ => false)) [⟨1⟩, ⟨2⟩] (.vStr ['1', ',', '2']) =
      .error .attributeError ∧
    fieldClean (some (fun u => u.pk != 1)) [⟨1⟩, ⟨2⟩] (.vStr ['1', ',', '2']) =
      .error .attributeError := by decide

/-! ## The set-difference validation of `clean` -/

theorem pkStrsOf_usersFound_subset (allUsers : List PUser) (ids : List PyStr) :
    ∀ t ∈ pkStrsOf (usersFound allUsers ids), t ∈ ids := by
  intro t ht
  simp only [pkStrsOf, usersFound, List.mem_dedup, List.mem_map, List.mem_filter] at ht
  obtain ⟨u, ⟨-, hu⟩, rfl⟩ := ht
  exact of_decide_eq_true hu

theorem unknownIdsOf_eq_diff {ids pkStrs : List PyStr}
    (hsub : ∀ t ∈ pkStrs, t ∈ ids) :
    ∀ t, t ∈ unknownIdsOf ids pkStrs ↔ t ∈ ids ∧ t ∉ pkStrs := by
  intro t
  simp only [unknownIdsOf, List.mem_append, List.mem_filter, decide_eq_true_eq]
  constructor
  · rintro (⟨h1, h2⟩ | ⟨h1, h2⟩)
    · exact ⟨h1, h2⟩
    · exact absurd (hsub t h1) h2
  · exact fun h => Or.inl h

theorem fieldClean_none_of_unknown_nil (allUsers : List PUser) (s : PyStr)
    (hs : s ≠ [])
    (h : unknownIdsOf (idsSetOf s) (pkStrsOf (usersFound allUsers (idsSetOf s))) = []) :
    fieldClean none allUsers (.vStr s) = .ok (.vList (usersFound allUsers (idsSetOf s))) := by
  unfold fieldClean
  dsimp only
  rw [if_neg (by simp [hs])]
  rw [if_pos (by simp [h])]

theorem fieldClean_none_of_unknown_ne_nil (allUsers : List PUser) (s : PyStr)
    (hs : s ≠ [])
    (h : unknownIdsOf (idsSetOf s) (pkStrsOf (usersFound allUsers (idsSetOf s))) ≠ []) :
    fieldClean none allUsers (.vStr s) =
      .error (.validationError
        (unknownIdsOf (idsSetOf s) (pkStrsOf (usersFound allUsers (idsSetOf s))))) := by
  unfold fieldClean
  dsimp only
  rw [if_neg (by simp [hs])]
  rw [if_neg (by simp [h])]

/-- C1 (amended to non-empty string inputs): `clean` computes the unknown
ids as the plain set difference of the submitted trimmed non-empty id
strings and the pk-strings of the users found (the `^` symmetric
difference collapses to the difference because every found pk-string was
submitted), raises a `ValidationError` naming exactly that difference when
it is non-empty, and otherwise — with no `recipient_filter` — returns the
found user list. -/
theorem clean_set_difference_validation (allUsers : List PUser) (s : PyStr)
    (hs : s ≠ []) :
    (∀ t, t ∈ unknownIdsOf (idsSetOf s) (pkStrsOf (usersFound allUsers (idsSetOf s))) ↔
      t ∈ idsSetOf s ∧ t ∉ pkStrsOf (usersFound allUsers (idsSetOf s))) ∧
    (unknownIdsOf (idsSetOf s) (pkStrsOf (usersFound allUsers (idsSetOf s))) = [] →
      fieldClean none allUsers (.vStr s) =
        .ok (.vList (usersFound allUsers (idsSetOf s)))) ∧
    (unknownIdsOf (idsSetOf s) (pkStrsOf (usersFound allUsers (idsSetOf s))) ≠ [] →
      fieldClean none allUsers (.vStr s) =
        .error (.validationError
          (unknownIdsOf (idsSetOf s) (pkStrsOf (usersFound allUsers (idsSetOf s)))))) :=
  ⟨unknownIdsOf_eq_diff (pkStrsOf_usersFound_subset allUsers (idsSetOf s)),
    fieldClean_none_of_unknown_nil allUsers s hs,
    fieldClean_none_of_unknown_ne_nil allUsers s hs⟩

theorem clean_set_difference_validation_witness :
    fieldClean none [⟨1⟩] (.vStr ['1', ',', ' ', '5']) =
      .error (.validationError [['5']]) ∧
    fieldClean none [⟨1⟩] (.vStr ['1', ' ']) = .ok (.vList [⟨1⟩]) :=
  ⟨((clean_set_difference_validation [⟨1⟩] ['1', ',', ' ', '5'] (by decide)).2.2
      (by decide)).trans (by decide),
   ((clean_set_difference_validation [⟨1⟩] ['1', ' '] (by decide)).2.1
      (by decide)).trans (by decide)⟩

/-- C1 counterexample: on the empty string — where the submitted id set,
the found users, and the set difference are all empty — `clean` does not
return the (empty) list of matching users: the falsy early-return yields
the empty string instead. -/
theorem clean_empty_string_returns_string_not_list :
    unknownIdsOf (idsSetOf []) (pkStrsOf (usersFound [⟨1⟩] (idsSetOf []))) = [] ∧
    usersFound [⟨1⟩] (idsSetOf []) = [] ∧
    fieldClean none [⟨1⟩] (.vStr []) = .ok (.vStr []) ∧
    fieldClean none [⟨1⟩] (.vStr []) ≠
      .ok (.vList (usersFound [⟨1⟩] (idsSetOf []))) := by decide

/-! ## The soft-delete, undelete and read-marking views -/

/-- C4: for a stored message, `delete` stamps `sender_deleted_at` (when the
requester is the sender) and/or `recipient_deleted_at` (when the requester
is the recipient) with the current time and saves the message back without
removing it (same table size, updated row present), exactly when the
requester is sender or recipient; otherwise it raises `Http404` and leaves
the store untouched. -/
theorem delete_marks_and_saves_or_404 (env : ModuleEnv) (req : Request)
    (now : Nat) (store : Store) (mid : Nat) (url : Option String) (m : Msg)
    (hfind : findMsg store mid = some m) :
    ((m.sender = req.user ∨ m.recipient = req.user) →
      deleteView env req now store mid url =
        ⟨env, saveMsg store (deleteStamp m req.user now),
          .ok (.redirect (resolveSuccessUrl req url)),
          if env.notificationInstalled then ["messages_deleted"] else []⟩ ∧
      (deleteView env req now store mid url).store.length = store.length ∧
      deleteStamp m req.user now ∈ (deleteView env req now store mid url).store) ∧
    (¬(m.sender = req.user ∨ m.recipient = req.user) →
      deleteView env req now store mid url = ⟨env, store, .error (), []⟩) := by
  constructor
  · intro hperm
    have hbody := deleteView_success env req now store mid url m hfind hperm
    refine ⟨hbody, ?_, ?_⟩
    · rw [hbody]
      exact saveMsg_length store (deleteStamp m req.user now)
    · rw [hbody]
      exact mem_saveMsg_self (deleteStamp m req.user now) (findMsg_mem hfind) rfl
  · exact deleteView_404 env req now store mid url m hfind

theorem delete_marks_and_saves_or_404_witness :
    deleteView ⟨false⟩ ⟨10, false, none⟩ 5
        [⟨1, 10, 20, "s", "b", none, none, none, none, none⟩] 1 none =
      ⟨⟨false⟩, [⟨1, 10, 20, "s", "b", none, none, none, some 5, none⟩],
        .ok (.redirect "messages_inbox"), []⟩ :=
  ((delete_marks_and_saves_or_404 ⟨false⟩ ⟨10, false, none⟩ 5
      [⟨1, 10, 20, "s", "b", none, none, none, none, none⟩] 1 none
      ⟨1, 10, 20, "s", "b", none, none, none, none, none⟩ (by decide)).1
    (Or.inl rfl)).1.trans (by decide)

/-- C5: for a stored message, `view` stamps `read_at` with the current time
and saves exactly when the requester is the recipient and `read_at` is
still unset; a permitted access in any other situation leaves the message
and the store unchanged; a requester who is neither sender nor recipient
gets `Http404` with the store untouched. -/
theorem view_marks_read_exactly_when_unread_recipient (env : ModuleEnv)
    (req : Request) (now : Nat) (store : Store) (mid : Nat) (m : Msg)
    (hfind : findMsg store mid = some m) :
    (m.sender ≠ req.user ∧ m.recipient ≠ req.user →
      viewView env req now store mid = ⟨env, store, .error (), []⟩) ∧
    (m.read_at = none ∧ m.recipient = req.user →
      viewView env req now store mid =
        ⟨env, saveMsg store { m with read_at := some now },
          .ok (.renderMessage "django_messages/view.html" { m with read_at := some now }),
          []⟩) ∧
    ((m.sender = req.user ∨ m.recipient = req.user) →
      ¬(m.read_at = none ∧ m.recipient = req.user) →
      viewView env req now store mid =
        ⟨env, store, .ok (.renderMessage "django_messages/view.html" m), []⟩) := by
  refine ⟨fun hdeny => ?_, fun hread => ?_, fun hperm hnoread => ?_⟩
  · unfold viewView
    rw [hfind]
    dsimp only
    rw [if_pos hdeny]
  · unfold viewView
    rw [hfind]
    dsimp only
    rw [if_neg (by intro h; exact h.2 hread.2), if_pos hread]
  · unfold viewView
    rw [hfind]
    dsimp only
    rw [if_neg (by intro h; rcases hperm with h1 | h1; exacts [h.1 h1, h.2 h1]),
      if_neg hnoread]

theorem view_marks_read_witness :
    viewView ⟨true⟩ ⟨20, false, none⟩ 9
        [⟨1, 10, 20, "s", "b", none, none, none, none, none⟩] 1 =
      ⟨⟨true⟩, [⟨1, 10, 20, "s", "b", none, some 9, none, none, none⟩],
        .ok (.renderMessage "django_messages/view.html"
          ⟨1, 10, 20, "s", "b", none, some 9, none, none, none⟩), []⟩ :=
  ((view_marks_read_exactly_when_unread_recipient ⟨true⟩ ⟨20, false, none⟩ 9
      [⟨1, 10, 20, "s", "b", none, none, none, none, none⟩] 1
      ⟨1, 10, 20, "s", "b", none, none, none, none, none⟩ (by decide)).2.1
    ⟨rfl, rfl⟩).trans (by decide)

/-- C7: a successful `delete` or `undelete` changes only the soft-delete
markers of the rows carrying the targeted id: the resulting store is the
pointwise image that rewrites exactly those two fields of the targeted
message and nothing else, and every other message survives unchanged. -/
theorem delete_undelete_frame (env : ModuleEnv) (req : Request) (now : Nat)
    (store : Store) (mid : Nat) (url : Option String) (m : Msg)
    (hfind : findMsg store mid = some m)
    (hnodup : (store.map Msg.id).Nodup)
    (hperm : m.sender = req.user ∨ m.recipient = req.user) :
    (deleteView env req now store mid url).store =
      store.map (fun x => if x.id = mid then deleteStamp x req.user now else x) ∧
    (undeleteView env req store mid url).store =
      store.map (fun x => if x.id = mid then undeleteClear x req.user else x) ∧
    (∀ x ∈ store, x.id ≠ mid →
      x ∈ (deleteView env req now store mid url).store ∧
      x ∈ (undeleteView env req store mid url).store) := by
  have hid : m.id = mid := findMsg_id hfind
  have hmem : m ∈ store := findMsg_mem hfind
  have hdel : (deleteView env req now store mid url).store =
      store.map (fun x => if x.id = mid then deleteStamp x req.user now else x) := by
    rw [deleteView_success env req now store mid url m hfind hperm]
    dsimp only
    unfold saveMsg
    refine List.map_congr_left fun x hx => ?_
    by_cases hxid : x.id = mid
    · have hxm : x = m := eq_of_mem_of_id_eq hnodup hx hmem (hxid.trans hid.symm)
      subst hxm
      rw [if_pos hxid, if_pos (show x.id = (deleteStamp x req.user now).id from hxid.trans hid.symm)]
    · rw [if_neg hxid, if_neg (by simpa [deleteStamp, hid] using hxid)]
  have hundel : (undeleteView env req store mid url).store =
      store.map (fun x => if x.id = mid then undeleteClear x req.user else x) := by
    rw [undeleteView_success env req store mid url m hfind hperm]
    dsimp only
    unfold saveMsg
    refine List.map_congr_left fun x hx => ?_
    by_cases hxid : x.id = mid
    · have hxm : x = m := eq_of_mem_of_id_eq hnodup hx hmem (hxid.trans hid.symm)
      subst hxm
      rw [if_pos hxid, if_pos (show x.id = (undeleteClear x req.user).id from hxid.trans hid.symm)]
    · rw [if_neg hxid, if_neg (by simpa [undeleteClear, hid] using hxid)]
  refine ⟨hdel, hundel, fun x hx hxid => ⟨?_, ?_⟩⟩
  · rw [hdel]
    have h := List.mem_map_of_mem
      (fun y => if y.id = mid then deleteStamp y req.user now else y) hx
    simpa [hxid] using h
  · rw [hundel]
    have h := List.mem_map_of_mem
      (fun y => if y.id = mid then undeleteClear y req.user else y) hx
    simpa [hxid] using h

theorem delete_undelete_frame_witness :
    (deleteView ⟨false⟩ ⟨20, false, none⟩ 7
        [⟨1, 10, 20, "s", "b", none, some 3, none, none, none⟩,
         ⟨2, 20, 10, "t", "c", none, none, none, none, none⟩] 1 none).store =
      [⟨1, 10, 20, "s", "b", none, some 3, none, none, some 7⟩,
       ⟨2, 20, 10, "t", "c", none, none, none, none, none⟩] ∧
    (undeleteView ⟨false⟩ ⟨20, false, none⟩
        [⟨1, 10, 20, "s", "b", none, some 3, none, none, some 7⟩,
         ⟨2, 20, 10, "t", "c", none, none, none, none, none⟩] 1 none).store =
      [⟨1, 10, 20, "s", "b", none, some 3, none, none, none⟩,
       ⟨2, 20, 10, "t", "c", none, none, none, none, none⟩] :=
  ⟨(delete_undelete_frame ⟨false⟩ ⟨20, false, none⟩ 7
      [⟨1, 10, 20, "s", "b", none, some 3, none, none, none⟩,
       ⟨2, 20, 10, "t", "c", none, none, none, none, none⟩] 1 none
      ⟨1, 10, 20, "s", "b", none, some 3, none, none, none⟩
      (by decide) (by decide) (Or.inr rfl)).1.trans (by decide),
   (delete_undelete_frame ⟨false⟩ ⟨20, false, none⟩ 7
      [⟨1, 10, 20, "s", "b", none, some 3, none, none, some 7⟩,
       ⟨2, 20, 10, "t", "c", none, none, none, none, none⟩] 1 none
      ⟨1, 10, 20, "s", "b", none, some 3, none, none, some 7⟩
      (by decide) (by decide) (Or.inr rfl)).2.1.trans (by decide)⟩

/-! ## Decimal pk-strings: character facts and injectivity -/

theorem digitChar_lt10_inj :
    ∀ a < 10, ∀ b < 10, Nat.digitChar a = Nat.digitChar b → a = b := by decide

theorem digitChar_lt10_good :
    ∀ d < 10, (Nat.digitChar d).isWhitespace = false ∧ Nat.digitChar d ≠ ',' := by decide

theorem natStr_ne_nil (n : Nat) : natStr n ≠ [] := by
  rw [natStr_eq_digits]
  split
  · simp
  · rename_i hn
    simp [List.reverse_eq_nil_iff, List.map_eq_nil_iff, Nat.digits_ne_nil_iff_ne_zero, hn]

theorem natStr_chars (n : Nat) :
    ∀ c ∈ natStr n, c.isWhitespace = false ∧ c ≠ ',' := by
  rw [natStr_eq_digits]
  split
  · intro c hc
    simp only [List.mem_singleton] at hc
    subst hc
    decide
  · intro c hc
    rw [List.mem_reverse] at hc
    obtain ⟨d, hd, rfl⟩ := List.mem_map.mp hc
    exact digitChar_lt10_good d (Nat.digits_lt_base (by norm_num) hd)

theorem map_digitChar_inj :
    ∀ l1 l2 : List Nat, (∀ d ∈ l1, d < 10) → (∀ d ∈ l2, d < 10) →
      l1.map Nat.digitChar = l2.map Nat.digitChar → l1 = l2 := by
  intro l1
  induction l1 with
  | nil =>
    intro l2 _ _ h
    cases l2 with
    | nil => rfl
    | cons b t => simp at h
  | cons a t ih =>
    intro l2 h1 h2 h
    cases l2 with
    | nil => simp at h
    | cons b t2 =>
      simp only [List.map_cons, List.cons.injEq] at h
      have hab : a = b :=
        digitChar_lt10_inj a (h1 a (by simp)) b (h2 b (by simp)) h.1
      have ht : t = t2 :=
        ih t2 (fun d hd => h1 d (by simp [hd])) (fun d hd => h2 d (by simp [hd])) h.2
      rw [hab, ht]

theorem natStr_not_zero_char (n : Nat) (hn : n ≠ 0) :
    ((Nat.digits 10 n).map Nat.digitChar).reverse ≠ ['0'] := by
  intro h
  have h' : (Nat.digits 10 n).map Nat.digitChar = ['0'] := by
    have := congrArg List.reverse h
    simpa using this
  have hd : Nat.digits 10 n = [0] :=
    map_digitChar_inj (Nat.digits 10 n) [0]
      (fun d hd => Nat.digits_lt_base (by norm_num) hd)
      (by intro d hd; simp only [List.mem_singleton] at hd; omega)
      (by rw [h']; rfl)
  have hzero := Nat.ofDigits_digits 10 n
  rw [hd] at hzero
  simp [Nat.ofDigits] at hzero
  exact hn hzero.symm

theorem natStr_injective : Function.Injective natStr := by
  intro a b h
  rw [natStr_eq_digits, natStr_eq_digits] at h
  by_cases ha : a = 0 <;> by_cases hb : b = 0
  · rw [ha, hb]
  · rw [if_pos ha, if_neg hb] at h
    exact absurd h.symm (natStr_not_zero_char b hb)
  · rw [if_neg ha, if_pos hb] at h
    exact absurd h (natStr_not_zero_char a ha)
  · rw [if_neg ha, if_neg hb] at h
    have h' := List.reverse_injective h
    have hdig := map_digitChar_inj _ _
      (fun d hd => Nat.digits_lt_base (by norm_num) hd)
      (fun d hd => Nat.digits_lt_base (by norm_num) hd) h'
    have ha' := Nat.ofDigits_digits 10 a
    have hb' := Nat.ofDigits_digits 10 b
    rw [← ha', ← hb', hdig]

/-! ## Stripping and joining -/

theorem pyStrip_no_ws {l : PyStr} (h : ∀ c ∈ l, c.isWhitespace = false) :
    pyStrip l = l := by
  unfold pyStrip
  have h1 : l.dropWhile Char.isWhitespace = l := by
    cases l with
    | nil => rfl
    | cons a t => exact List.dropWhile_cons_of_neg (by simp [h a (by simp)])
  rw [h1]
  rw [List.rdropWhile_eq_self_iff]
  intro hl
  simp [h _ (List.getLast_mem hl)]

theorem pyStrip_space_cons (l : PyStr) : pyStrip (' ' :: l) = pyStrip l := by
  unfold pyStrip
  rw [List.dropWhile_cons_of_pos (by decide)]

theorem pyStrip_natStr (n : Nat) : pyStrip (natStr n) = natStr n :=
  pyStrip_no_ws (fun c hc => (natStr_chars n c hc).1)

theorem intercalate_two {α : Type} (sep x y : List α) (t : List (List α)) :
    sep.intercalate (x :: y :: t) = x ++ sep ++ sep.intercalate (y :: t) := by
  simp [List.intercalate, List.intersperse_cons_cons, List.append_assoc]

theorem intercalate_comma_space_head (y : PyStr) (rest : List PyStr) :
    [','].intercalate ((' ' :: y) :: rest) = ' ' :: [','].intercalate (y :: rest) := by
  cases rest with
  | nil => rfl
  | cons r rs =>
    rw [intercalate_two, intercalate_two]
    simp

theorem comma_space_intercalate (x : PyStr) (xs : List PyStr) :
    [',', ' '].intercalate (x :: xs) =
      [','].intercalate (x :: xs.map (fun t => ' ' :: t)) := by
  induction xs generalizing x with
  | nil => rfl
  | cons y t ih =>
    rw [intercalate_two, ih y, List.map_cons, intercalate_two,
      intercalate_comma_space_head]
    simp

theorem intercalate_head_ne_nil (x : PyStr) (rest : List PyStr) (hx : x ≠ []) :
    [','].intercalate (x :: rest) ≠ [] := by
  cases rest with
  | nil => simpa [List.intercalate]
  | cons r rs =>
    rw [intercalate_two]
    simp [hx]

/-! ## The widget value splits back into the pk-strings -/

theorem idsSetOf_join (u : PUser) (us' : List PUser) :
    ∀ t, t ∈ idsSetOf ([',', ' '].intercalate ((u :: us').map (fun v => natStr v.pk))) ↔
      ∃ v ∈ u :: us', t = natStr v.pk := by
  intro t
  rw [List.map_cons, comma_space_intercalate]
  have hsplit :
      ([','].intercalate
        (natStr u.pk :: (us'.map (fun v => natStr v.pk)).map (fun s => ' ' :: s))).splitOn ',' =
      natStr u.pk :: (us'.map (fun v => natStr v.pk)).map (fun s => ' ' :: s) := by
    apply List.splitOn_intercalate
    · intro l hl
      rcases List.mem_cons.mp hl with rfl | hl'
      · intro hc
        exact (natStr_chars _ _ hc).2 rfl
      · obtain ⟨s, hs, rfl⟩ := List.mem_map.mp hl'
        obtain ⟨v, _, rfl⟩ := List.mem_map.mp hs
        intro hc
        rcases List.mem_cons.mp hc with h | h
        · exact absurd h (by decide)
        · exact (natStr_chars _ _ h).2 rfl
    · simp
  unfold idsSetOf
  rw [hsplit]
  constructor
  · intro ht
    rw [List.mem_dedup, List.mem_filter] at ht
    obtain ⟨hmem, hne⟩ := ht
    obtain ⟨c, hc, rfl⟩ := List.mem_map.mp hmem
    rw [List.mem_dedup] at hc
    rcases List.mem_cons.mp hc with rfl | hc'
    · exact ⟨u, List.mem_cons_self u us', pyStrip_natStr u.pk⟩
    · obtain ⟨s, hs, rfl⟩ := List.mem_map.mp hc'
      obtain ⟨v, hv, rfl⟩ := List.mem_map.mp hs
      exact ⟨v, List.mem_cons_of_mem u hv,
        by rw [pyStrip_space_cons, pyStrip_natStr]⟩
  · rintro ⟨v, hv, rfl⟩
    rw [List.mem_dedup, List.mem_filter]
    rcases List.mem_cons.mp hv with rfl | hv'
    · refine ⟨List.mem_map.mpr ⟨natStr v.pk, ?_, pyStrip_natStr _⟩, ?_⟩
      · rw [List.mem_dedup]
        exact List.mem_cons_self _ _
      · simp [natStr_ne_nil v.pk]
    · refine ⟨List.mem_map.mpr ⟨' ' :: natStr v.pk, ?_, ?_⟩, ?_⟩
      · rw [List.mem_dedup]
        exact List.mem_cons_of_mem _
          (List.mem_map.mpr ⟨natStr v.pk, List.mem_map.mpr ⟨v, hv', rfl⟩, rfl⟩)
      · rw [pyStrip_space_cons, pyStrip_natStr]
      · simp [natStr_ne_nil v.pk]

theorem usersFound_join_mem (store us : List PUser) (ids : List PyStr)
    (hids : ∀ t, t ∈ ids ↔ ∃ v ∈ us, t = natStr v.pk)
    (hsub : ∀ u ∈ us, u ∈ store)
    (hstore : (store.map PUser.pk).Nodup) :
    ∀ u, u ∈ usersFound store ids ↔ u ∈ us := by
  intro u
  unfold usersFound
  rw [List.mem_filter]
  constructor
  · rintro ⟨hu, hdec⟩
    obtain ⟨v, hv, heq⟩ := (hids _).mp (of_decide_eq_true hdec)
    have huv : u = v :=
      List.inj_on_of_nodup_map hstore hu (hsub v hv) (natStr_injective heq)
    rw [huv]
    exact hv
  · intro hv
    exact ⟨hsub u hv, decide_eq_true ((hids _).mpr ⟨u, hv, rfl⟩)⟩

theorem unknownIds_join_nil (store us : List PUser) (ids : List PyStr)
    (hids : ∀ t, t ∈ ids ↔ ∃ v ∈ us, t = natStr v.pk)
    (hsub : ∀ u ∈ us, u ∈ store)
    (hstore : (store.map PUser.pk).Nodup) :
    unknownIdsOf ids (pkStrsOf (usersFound store ids)) = [] := by
  have h1 : ids.filter (fun t => decide (t ∉ pkStrsOf (usersFound store ids))) = [] := by
    rw [List.filter_eq_nil_iff]
    intro t ht
    simp only [decide_eq_true_eq, not_not]
    obtain ⟨v, hv, rfl⟩ := (hids t).mp ht
    have hvf : v ∈ usersFound store ids :=
      (usersFound_join_mem store us ids hids hsub hstore v).mpr hv
    unfold pkStrsOf
    rw [List.mem_dedup]
    exact List.mem_map.mpr ⟨v, hvf, rfl⟩
  have h2 : (pkStrsOf (usersFound store ids)).filter (fun t => decide (t ∉ ids)) = [] := by
    rw [List.filter_eq_nil_iff]
    intro t ht
    simp only [decide_eq_true_eq, not_not]
    exact pkStrsOf_usersFound_subset store ids t ht
  unfold unknownIdsOf
  rw [h1, h2]
  rfl

/-- C9: rendering a non-empty list of users (distinct pks, all present in
the user table) through `CommaSeparatedUserInput` embeds the widget value
`', '.join(str(u.pk))`, and feeding that very string back through
`CommaSeparatedUserField.clean` (no `recipient_filter`) succeeds and
returns a list containing exactly those users. -/
theorem render_clean_roundtrip (store us : List PUser) (hne : us ≠ [])
    (hus : (us.map PUser.pk).Nodup)
    (hsub : ∀ u ∈ us, u ∈ store)
    (hstore : (store.map PUser.pk).Nodup) :
    commaSeparatedUserInputValue (some (.vList us)) =
      [',', ' '].intercalate (us.map (fun u => natStr u.pk)) ∧
    fieldClean none store (.vStr (commaSeparatedUserInputValue (some (.vList us)))) =
      .ok (.vList (usersFound store
        (idsSetOf (commaSeparatedUserInputValue (some (.vList us)))))) ∧
    (∀ u, u ∈ usersFound store
        (idsSetOf (commaSeparatedUserInputValue (some (.vList us)))) ↔ u ∈ us) := by
  obtain ⟨u0, us', rfl⟩ : ∃ u0 us', us = u0 :: us' := by
    cases us with
    | nil => exact absurd rfl hne
    | cons a t => exact ⟨a, t, rfl⟩
  have hids := idsSetOf_join u0 us'
  have hmem := usersFound_join_mem store (u0 :: us') _ hids hsub hstore
  have hsne : commaSeparatedUserInputValue (some (.vList (u0 :: us'))) ≠ [] := by
    show [',', ' '].intercalate ((u0 :: us').map (fun u => natStr u.pk)) ≠ []
    rw [List.map_cons, comma_space_intercalate]
    exact intercalate_head_ne_nil _ _ (natStr_ne_nil u0.pk)
  exact ⟨rfl,
    fieldClean_none_of_unknown_nil store _ hsne
      (unknownIds_join_nil store (u0 :: us') _ hids hsub hstore),
    hmem⟩

theorem render_clean_roundtrip_witness :
    fieldClean none [⟨1⟩, ⟨12⟩]
        (.vStr (commaSeparatedUserInputValue (some (.vList [⟨12⟩, ⟨1⟩])))) =
      .ok (.vList [⟨1⟩, ⟨12⟩]) :=
  ((render_clean_roundtrip [⟨1⟩, ⟨12⟩] [⟨12⟩, ⟨1⟩] (by decide) (by decide)
      (by decide) (by decide)).2.1).trans (by decide)

end DjangoMessages
